import Mathlib

/-!
Verification development for the napa runtime C++ wrapper
(`src/inc/napa-runtime.h`).  The header is a thin, header-only C++ layer
over a C API declared in `napa-runtime-c.h` (not part of the sources at
hand); the C-side types, macros and engine entry points are therefore
modelled from the specification, while every wrapper-side definition below
is a direct shallow embedding of the corresponding code in
`napa-runtime.h`.
-/

/-- Modelled from the spec: the response code taxonomy (§6) declared in the
missing `napa-runtime-c.h` — Undefined (sentinel default), Success, Timeout,
LoadFailure, ExecutionFailure, InitializationFailure. -/
inductive NapaResponseCode where
  | undefined
  | success
  | timeout
  | loadFailure
  | executionFailure
  | initializationFailure
deriving DecidableEq

/-- Engine/caller memory, modelled as a flat sequence of characters;
addresses are indices into it. -/
abbrev Mem := List Char

/-- Modelled from the spec: `napa_string_ref` from the missing
`napa-runtime-c.h` — a non-owning view, pointer plus length (§3). -/
structure NapaStringRef where
  data : Nat
  size : Nat
deriving DecidableEq

/-- Modelled from the spec: the `NAPA_STRING_REF_TO_STD_STRING` macro from
the missing `napa-runtime-c.h` — copies the `size` viewed bytes starting at
address `data` into an independently owned string. -/
def napaStringRefToStdString (m : Mem) (r : NapaStringRef) : String :=
  String.mk ((m.drop r.data).take r.size)

/-- An owned `std::string`: the address of its character storage together
with its contents. -/
structure OwnedString where
  addr : Nat
  content : String
deriving DecidableEq

/-- Modelled from the spec: the `STD_STRING_TO_NAPA_STRING_REF` macro from
the missing `napa-runtime-c.h` — forms a view borrowing the string's
storage (its address and its length), copying nothing. -/
def stdStringToNapaStringRef (s : OwnedString) : NapaStringRef :=
  { data := s.addr, size := s.content.length }

/-- The string `s` is stored in memory `m` at address `a`. -/
abbrev storedAt (m : Mem) (a : Nat) (s : String) : Prop :=
  (m.drop a).take s.length = s.data

/-- Modelled from the spec: the engine-native `napa_container_response`
struct from the missing `napa-runtime-c.h` — a response code plus two
string views into engine-owned buffers. -/
structure NapaContainerResponse where
  code : NapaResponseCode
  error : NapaStringRef
  return_value : NapaStringRef
deriving DecidableEq

/-- `Response` (`napa-runtime.h` lines 17–38): a response code and two
owned strings. -/
structure Response where
  code : NapaResponseCode
  error : String
  returnValue : String
deriving DecidableEq

/-- The default constructor `Response()` (lines 19–21): sets `code` to
`NAPA_RESPONSE_UNDEFINED`; the two `std::string` members default-construct
empty. -/
def Response.defaultConstruct : Response :=
  { code := .undefined, error := "", returnValue := "" }

/-- The converting constructor `Response(napa_container_response)`
(lines 23–28): keeps the code and copies each view into an owned string via
`NAPA_STRING_REF_TO_STD_STRING`, reading the engine memory `m` at
construction time. -/
def Response.ofNative (m : Mem) (r : NapaContainerResponse) : Response :=
  { code := r.code
  , error := napaStringRefToStdString m r.error
  , returnValue := napaStringRefToStdString m r.return_value }

/-- `internal::ConvertToNapaRuntimeArgs` (lines 155–165): one borrowed view
per argument string, in order. -/
def ConvertToNapaRuntimeArgs (args : List OwnedString) : List NapaStringRef :=
  args.map stdStringToNapaStringRef

/-- `internal::ConvertToNapaRuntimeArgs` instrumented with a cost counter:
the loop body performs exactly one `emplace_back` (one view construction)
per argument, mirrored here by the `+ 1` per fold step. -/
def ConvertToNapaRuntimeArgsCounted (args : List OwnedString) :
    List NapaStringRef × Nat :=
  args.foldl (fun acc arg => (acc.1 ++ [stdStringToNapaStringRef arg], acc.2 + 1)) ([], 0)

/- Helper lemmas about the marshaling layer. -/

theorem string_mk_data (s : String) : String.mk s.data = s := rfl

/-- Reading back a view over a stored string yields the stored contents. -/
theorem readRef_storedAt (m : Mem) (a : Nat) (s : String)
    (h : storedAt m a s) :
    napaStringRefToStdString m { data := a, size := s.length } = s := by
  exact congrArg String.mk h

theorem convertCounted_foldl (g : OwnedString → NapaStringRef)
    (args : List OwnedString) :
    ∀ (acc : List NapaStringRef) (n : Nat),
      args.foldl (fun p arg => (p.1 ++ [g arg], p.2 + 1)) (acc, n)
        = (acc ++ args.map g, n + args.length) := by
  induction args with
  | nil => intro acc n; simp
  | cons a rest ih =>
      intro acc n
      simp [List.foldl_cons, ih, Nat.add_comm, Nat.add_assoc, Nat.add_left_comm]

theorem convertCounted_eq (args : List OwnedString) :
    ConvertToNapaRuntimeArgsCounted args
      = (ConvertToNapaRuntimeArgs args, args.length) := by
  unfold ConvertToNapaRuntimeArgsCounted ConvertToNapaRuntimeArgs
  simpa using convertCounted_foldl stdStringToNapaStringRef args [] 0

/-- `internal::AsyncCompletionContext` (lines 128–144): a heap-allocated
holder whose only member is the user callback (moved in at construction);
callbacks are identified by a numeric id.  The template instantiates at
`LoadCallback` (for `Load`/`LoadFile`) and `RunCallback` (for `Run`) with
the same definition. -/
structure AsyncCompletionContext where
  callback : Nat
deriving DecidableEq

/-- The heap of live completion contexts, as the wrapper's `new` and
`unique_ptr` destruction manipulate it: an association of context-pointer
addresses to contexts, plus the next fresh address `new` would return. -/
structure BridgeState where
  heap : List (Nat × AsyncCompletionContext)
  nextAddr : Nat
deriving DecidableEq

/-- Well-formedness of a bridge state: every live context's address was
allocated before the next fresh address. -/
abbrev BridgeState.WF (s : BridgeState) : Prop :=
  ∀ p ∈ s.heap, p.1 < s.nextAddr

/-- Look up the context a pointer refers to, if it is live. -/
def heapLookup (h : List (Nat × AsyncCompletionContext)) (a : Nat) :
    Option AsyncCompletionContext :=
  (h.find? (fun p => p.1 == a)).map Prod.snd

/-- The submission side shared by `Container::LoadFile` (lines 185–194),
`Container::Load` (lines 201–210) and `Container::Run` (lines 217–235):
`new internal::AsyncCompletionContext(std::move(callback))` allocates a
fresh context holding exactly the user callback and hands its address to
the engine as the opaque `context` pointer.  Returns that address and the
bridge state after the submission call has returned. -/
def submitAsync (s : BridgeState) (cb : Nat) : Nat × BridgeState :=
  (s.nextAddr,
   { heap := (s.nextAddr, { callback := cb }) :: s.heap, nextAddr := s.nextAddr + 1 })

/-- `internal::CompletionHandler` (lines 146–153): reconstruct ownership of
the `AsyncCompletionContext` from the opaque pointer into a `unique_ptr`,
invoke the stored callback with the response, and destroy the context when
the `unique_ptr` goes out of scope.  Returns the state after destruction
together with the invocation performed (callback id and the response value
handed to it); `none` models the pointer not naming a live context, a case
the engine's exactly-once contract rules out (the source would have
undefined behavior there). -/
def CompletionHandler {R : Type} (s : BridgeState) (context : Nat) (response : R) :
    Option (BridgeState × Nat × R) :=
  match heapLookup s.heap context with
  | some ctx =>
      some ({ s with heap := s.heap.filter (fun p => p.1 != context) },
            ctx.callback, response)
  | none => none

/-- One engine-observable event of the asynchronous bridge: either a
submission (which allocates a context and, modelled from the spec §4.2,
returns control immediately without invoking any callback) or an
engine-signalled completion carrying the context pointer and a response. -/
inductive AsyncStep (R : Type) where
  | submit (cb : Nat)
  | complete (context : Nat) (response : R)

/-- One step of the bridge.  A submission performs `submitAsync` and emits
no callback invocation; a completion runs `internal::CompletionHandler`.
Emitted invocation events are tagged `(context address, callback id,
response)`. -/
def stepAsync {R : Type} (s : BridgeState) : AsyncStep R → BridgeState × List (Nat × Nat × R)
  | .submit cb => ((submitAsync s cb).2, [])
  | .complete a r =>
      match CompletionHandler s a r with
      | some (s2, cb, resp) => (s2, [(a, cb, resp)])
      | none => (s, [])

/-- Run a sequence of bridge steps, collecting invocation events in
order. -/
def runAsync {R : Type} (s : BridgeState) : List (AsyncStep R) → BridgeState × List (Nat × Nat × R)
  | [] => (s, [])
  | st :: rest =>
      let out := stepAsync s st
      let res := runAsync out.1 rest
      (res.1, out.2 ++ res.2)

/-- Opaque engine-side container handle (`napa_container_handle`). -/
abbrev NapaContainerHandle := Nat

/-- `Container` (lines 45–101): its one data member is the engine handle
`_handle`. -/
structure Container where
  _handle : NapaContainerHandle
deriving DecidableEq

/-- Modelled from the spec: the engine capabilities consumed across the C
boundary (§6) — `napa_container_create`, `napa_container_init` and
`napa_container_run_sync`; their implementations live outside this
repository, so they are abstracted as functions. -/
structure Engine where
  create : NapaContainerHandle
  init : NapaContainerHandle → NapaStringRef → NapaResponseCode
  run_sync : NapaContainerHandle → NapaStringRef → Nat → List NapaStringRef → Nat →
    NapaContainerResponse

/-- `Container::Container` (lines 168–173): `_handle = napa_container_create()`
then `napa_container_init(_handle, settings view)`.  The second component
is the engine's initialization response code, which the source constructor
discards without inspecting it. -/
def Container.construct (e : Engine) (settings : OwnedString) :
    Container × NapaResponseCode :=
  let h := e.create
  let code := e.init h (stdStringToNapaStringRef settings)
  ({ _handle := h }, code)

/-- `Container::~Container` (lines 175–178): releases the held handle via
`napa_container_release`; the result is the handle that gets released. -/
def Container.destruct (c : Container) : NapaContainerHandle :=
  c._handle

/-- `Container::RunSync` (lines 237–252): convert the arguments to views,
call `napa_container_run_sync` with the function-name view, `argv.size()`,
`argv.data()` and the timeout, and convert the native response, reading the
engine memory `m` at return time. -/
def Container.RunSync (e : Engine) (c : Container) (m : Mem)
    (func : OwnedString) (args : List OwnedString) (timeout : Nat) : Response :=
  let argv := ConvertToNapaRuntimeArgs args
  let response := e.run_sync c._handle (stdStringToNapaStringRef func)
    argv.length argv timeout
  Response.ofNative m response

/-- Everything `Container::Run` (lines 217–235) hands to
`napa_container_run`: handle, function-name view, `argv.size()`,
`argv.data()`, the opaque context pointer, and the timeout. -/
structure RunEngineCall where
  handle : NapaContainerHandle
  func : NapaStringRef
  argc : Nat
  argv : List NapaStringRef
  context : Nat
  timeout : Nat
deriving DecidableEq

/-- `Container::Run` (lines 217–235): build the local view vector `argv`,
allocate the completion context holding exactly the callback, and call the
engine.  The first component is what the engine receives during the call;
the second is the bridge state retained after `Run` returns — `argv` is a
local of `Run` and is not part of it. -/
def Container.Run (s : BridgeState) (c : Container) (func : OwnedString)
    (args : List OwnedString) (cb : Nat) (timeout : Nat) :
    RunEngineCall × BridgeState :=
  let argv := ConvertToNapaRuntimeArgs args
  let sub := submitAsync s cb
  ({ handle := c._handle
   , func := stdStringToNapaStringRef func
   , argc := argv.length
   , argv := argv
   , context := sub.1
   , timeout := timeout }, sub.2)

/-- C++ special-member declaration status of a class, as written in the
source. -/
inductive SpecialMemberDecl where
  | notDeclared
  | declaredDeleted
  | userProvided
deriving DecidableEq

/-- The special members a class declares, together with whether it has a
user-declared destructor. -/
structure CppClassDecl where
  userDestructor : Bool
  copyConstructor : SpecialMemberDecl
  copyAssignment : SpecialMemberDecl
  moveConstructor : SpecialMemberDecl
  moveAssignment : SpecialMemberDecl
deriving DecidableEq

/-- C++ implicit special-member rules for copy construction: a declared
copy constructor is used as declared (deleted means not copyable); when
none is declared the compiler implicitly provides a defaulted one, unless a
move constructor or move assignment is declared, in which case the implicit
copy constructor is deleted.  (A user-declared destructor only deprecates,
but does not remove, the implicit copy constructor.) -/
def isCopyConstructible (c : CppClassDecl) : Bool :=
  match c.copyConstructor with
  | .userProvided => true
  | .declaredDeleted => false
  | .notDeclared =>
      c.moveConstructor == .notDeclared && c.moveAssignment == .notDeclared

/-- `Container`'s special-member declarations (lines 45–101): a
user-provided constructor and destructor, and no copy or move operations
declared anywhere in the class. -/
def containerClassDecl : CppClassDecl :=
  { userDestructor := true
  , copyConstructor := .notDeclared
  , copyAssignment := .notDeclared
  , moveConstructor := .notDeclared
  , moveAssignment := .notDeclared }

/-- `internal::AsyncCompletionContext`'s special-member declarations
(lines 136–140): copy and move constructor and assignment all explicitly
deleted. -/
def asyncCompletionContextClassDecl : CppClassDecl :=
  { userDestructor := false
  , copyConstructor := .declaredDeleted
  , copyAssignment := .declaredDeleted
  , moveConstructor := .declaredDeleted
  , moveAssignment := .declaredDeleted }

/-- The copy constructor C++ implicitly generates for `Container`:
memberwise copy of its one member, the handle. -/
def Container.implicitCopy (c : Container) : Container :=
  { _handle := c._handle }

/-- A probing engine whose `run_sync` reports `success` exactly when it
received timeout 0 and `timeout` otherwise, making the forwarded timeout
observable in the returned code. -/
def timeoutProbeEngine : Engine :=
  { create := 0
  , init := fun _ _ => .success
  , run_sync := fun _ _ _ _ t =>
      { code := if t = 0 then .success else .timeout
      , error := { data := 0, size := 0 }
      , return_value := { data := 0, size := 0 } } }

/-- An engine whose initialization always fails. -/
def failingInitEngine : Engine :=
  { create := 0
  , init := fun _ _ => .initializationFailure
  , run_sync := fun _ _ _ _ _ =>
      { code := .undefined
      , error := { data := 0, size := 0 }
      , return_value := { data := 0, size := 0 } } }

/- Helper lemmas about the completion bridge. -/

theorem heapFind_none_of_lt (h : List (Nat × AsyncCompletionContext)) (n a : Nat)
    (hk : ∀ p ∈ h, p.1 < n) (hna : n ≤ a) :
    h.find? (fun p => p.1 == a) = none := by
  rw [List.find?_eq_none]
  intro p hp
  have hlt : p.1 < a := Nat.lt_of_lt_of_le (hk p hp) hna
  simp [Nat.ne_of_lt hlt]

theorem heapFilter_eq_of_lt (h : List (Nat × AsyncCompletionContext)) (n a : Nat)
    (hk : ∀ p ∈ h, p.1 < n) (hna : n ≤ a) :
    h.filter (fun p => p.1 != a) = h := by
  rw [List.filter_eq_self]
  intro p hp
  have hlt : p.1 < a := Nat.lt_of_lt_of_le (hk p hp) hna
  simp [Nat.ne_of_lt hlt]

theorem heapLookup_none_of_lt (h : List (Nat × AsyncCompletionContext)) (n a : Nat)
    (hk : ∀ p ∈ h, p.1 < n) (hna : n ≤ a) :
    heapLookup h a = none := by
  unfold heapLookup
  rw [heapFind_none_of_lt h n a hk hna]
  rfl

theorem heapLookup_mem (h : List (Nat × AsyncCompletionContext)) (a : Nat)
    (ctx : AsyncCompletionContext) (hl : heapLookup h a = some ctx) :
    (a, ctx) ∈ h := by
  unfold heapLookup at hl
  cases hf : h.find? (fun p => p.1 == a) with
  | none => rw [hf] at hl; exact absurd hl (by simp)
  | some p =>
      rw [hf] at hl
      have hp : p ∈ h := List.mem_of_find?_eq_some hf
      have hpa : p.1 = a := by
        have := List.find?_some hf
        simpa using this
      have hsnd : p.2 = ctx := by simpa using hl
      have : p = (a, ctx) := by
        cases p
        simp_all
      rw [this] at hp
      exact hp

/-- A bridge step preserves well-formedness and never decreases the next
fresh address; every invocation event it emits is tagged with an address
already allocated (below the pre-step next address). -/
theorem stepAsync_props {R : Type} (s : BridgeState) (st : AsyncStep R)
    (hwf : s.WF) :
    (stepAsync s st).1.WF
    ∧ s.nextAddr ≤ (stepAsync s st).1.nextAddr
    ∧ ∀ e ∈ (stepAsync s st).2, e.1 < s.nextAddr := by
  cases st with
  | submit cb =>
      refine ⟨?_, ?_, ?_⟩
      · intro p hp
        simp only [stepAsync, submitAsync] at hp ⊢
        rcases List.mem_cons.mp hp with h1 | h2
        · subst h1; exact Nat.lt_succ_self _
        · exact Nat.lt_succ_of_lt (hwf p h2)
      · simp [stepAsync, submitAsync]
      · intro e he
        simp [stepAsync] at he
  | complete a r =>
      cases hc : CompletionHandler s a r with
      | none =>
          refine ⟨?_, ?_, ?_⟩
          · intro p hp
            simp only [stepAsync, hc] at hp ⊢
            exact hwf p hp
          · simp [stepAsync, hc]
          · intro e he
            simp [stepAsync, hc] at he
      | some out =>
          obtain ⟨s2, cb, resp⟩ := out
          have hmem : (a, ({ callback := cb } : AsyncCompletionContext)) ∈ s.heap := by
            unfold CompletionHandler at hc
            cases hl : heapLookup s.heap a with
            | none => rw [hl] at hc; exact absurd hc (by simp)
            | some ctx =>
                rw [hl] at hc
                have hcb : ctx.callback = cb := by
                  have := hc
                  simp only [Option.some.injEq] at this
                  have h2 := congrArg (fun x => x.2.1) this
                  simpa using h2
                have := heapLookup_mem s.heap a ctx hl
                cases ctx
                simp_all
          have hs2 : s2.heap = s.heap.filter (fun p => p.1 != a)
              ∧ s2.nextAddr = s.nextAddr := by
            unfold CompletionHandler at hc
            cases hl : heapLookup s.heap a with
            | none => rw [hl] at hc; exact absurd hc (by simp)
            | some ctx =>
                rw [hl] at hc
                simp only [Option.some.injEq] at hc
                have h1 := congrArg (fun x => x.1) hc
                simp at h1
                constructor
                · rw [← h1]
                · rw [← h1]
          refine ⟨?_, ?_, ?_⟩
          · intro p hp
            simp only [stepAsync, hc] at hp ⊢
            rw [hs2.2]
            rw [hs2.1] at hp
            exact hwf p (List.mem_of_mem_filter hp)
          · simp [stepAsync, hc, hs2.2]
          · intro e he
            simp only [stepAsync, hc, List.mem_singleton] at he
            subst he
            exact hwf _ hmem

/-- Running a sequence of bridge steps preserves well-formedness, never
decreases the next fresh address, and only emits invocation events tagged
with addresses below the final next fresh address. -/
theorem runAsync_props {R : Type} (steps : List (AsyncStep R)) :
    ∀ (s : BridgeState), s.WF →
    (runAsync s steps).1.WF
    ∧ s.nextAddr ≤ (runAsync s steps).1.nextAddr
    ∧ ∀ e ∈ (runAsync s steps).2, e.1 < (runAsync s steps).1.nextAddr := by
  induction steps with
  | nil =>
      intro s hwf
      refine ⟨hwf, Nat.le_refl _, ?_⟩
      intro e he
      simp [runAsync] at he
  | cons st rest ih =>
      intro s hwf
      obtain ⟨hwf1, hle1, hev1⟩ := stepAsync_props s st hwf
      obtain ⟨hwf2, hle2, hev2⟩ := ih (stepAsync s st).1 hwf1
      refine ⟨?_, ?_, ?_⟩
      · simpa [runAsync] using hwf2
      · calc s.nextAddr ≤ (stepAsync s st).1.nextAddr := hle1
          _ ≤ (runAsync (stepAsync s st).1 rest).1.nextAddr := hle2
          _ = (runAsync s (st :: rest)).1.nextAddr := by simp [runAsync]
      · intro e he
        simp only [runAsync, List.mem_append] at he
        rcases he with h1 | h2
        · have hlt := hev1 e h1
          have : s.nextAddr ≤ (runAsync s (st :: rest)).1.nextAddr := by
            calc s.nextAddr ≤ (stepAsync s st).1.nextAddr := hle1
              _ ≤ (runAsync (stepAsync s st).1 rest).1.nextAddr := hle2
              _ = (runAsync s (st :: rest)).1.nextAddr := by simp [runAsync]
          exact Nat.lt_of_lt_of_le hlt this
        · have := hev2 e h2
          simpa [runAsync] using this

theorem completionHandler_hit (s : BridgeState) (a : Nat)
    (ctx : AsyncCompletionContext) {R : Type} (r : R)
    (h : heapLookup s.heap a = some ctx) :
    CompletionHandler s a r
      = some ({ s with heap := s.heap.filter (fun p => p.1 != a) }, ctx.callback, r) := by
  unfold CompletionHandler
  rw [h]

theorem completionHandler_miss (s : BridgeState) (a : Nat) {R : Type} (r : R)
    (h : heapLookup s.heap a = none) :
    CompletionHandler s a r = none := by
  unfold CompletionHandler
  rw [h]

theorem heapLookup_cons_self (a : Nat) (ctx : AsyncCompletionContext)
    (t : List (Nat × AsyncCompletionContext)) :
    heapLookup ((a, ctx) :: t) a = some ctx := by
  unfold heapLookup
  rw [List.find?_cons_of_pos]
  · rfl
  · simp

theorem heapLookup_cons_ne (b a : Nat) (ctx : AsyncCompletionContext)
    (t : List (Nat × AsyncCompletionContext)) (hne : b ≠ a) :
    heapLookup ((b, ctx) :: t) a = heapLookup t a := by
  unfold heapLookup
  rw [List.find?_cons_of_neg]
  simp [hne]

/-- Reading a view whose size matches the stored string's length yields
that string. -/
theorem readRef_eq (m : Mem) (ref : NapaStringRef) (s : String)
    (h : storedAt m ref.data s) (hs : ref.size = s.length) :
    napaStringRefToStdString m ref = s := by
  unfold napaStringRefToStdString
  rw [hs, h]

/-- C8: Default construction of a Response always yields a value whose code
equals Undefined, whose error text is empty, and whose return value text is
empty. -/
theorem response_default_construction :
    Response.defaultConstruct.code = NapaResponseCode.undefined
    ∧ Response.defaultConstruct.error = ""
    ∧ Response.defaultConstruct.returnValue = "" :=
  ⟨rfl, rfl, rfl⟩

/-- C4 counterexample: the default-constructed Response — a Response value
produced by the wrapper — has an empty error field while its code is
Undefined, not Success, so the claimed "error empty iff code equals
Success" biconditional fails on it. -/
theorem response_error_iff_success_counterexample :
    Response.defaultConstruct.error = ""
    ∧ Response.defaultConstruct.code ≠ NapaResponseCode.success
    ∧ ¬ (Response.defaultConstruct.error = ""
          ↔ Response.defaultConstruct.code = NapaResponseCode.success) := by
  refine ⟨rfl, by decide, ?_⟩
  intro hiff
  exact absurd (hiff.mp rfl) (by decide)

/-- C4 (amended): default construction yields an empty error with code
Undefined (not Success), so the biconditional fails there; for a Response
constructed from an engine-native result the wrapper preserves the code and
copies the error bytes verbatim, hence its error is empty iff the engine's
error view reads back empty — the "error empty iff code equals Success"
biconditional holds for such a Response exactly when the engine's native
result satisfies it. -/
theorem response_error_iff_success_amended :
    (Response.defaultConstruct.error = ""
      ∧ Response.defaultConstruct.code = NapaResponseCode.undefined)
    ∧ ∀ (m : Mem) (r : NapaContainerResponse),
        (Response.ofNative m r).code = r.code
        ∧ (Response.ofNative m r).error = napaStringRefToStdString m r.error
        ∧ (((Response.ofNative m r).error = ""
              ↔ (Response.ofNative m r).code = NapaResponseCode.success)
            ↔ (napaStringRefToStdString m r.error = ""
              ↔ r.code = NapaResponseCode.success)) :=
  ⟨⟨rfl, rfl⟩, fun _ _ => ⟨rfl, rfl, Iff.rfl⟩⟩

/-- C2 counterexample: against an engine whose initialization always fails,
the Container constructor still produces a constructed Container (holding
the created handle) and discards the InitializationFailure code, so the
engine-side initialization failure is silently ignored. -/
theorem container_construct_ignores_init_failure :
    Container.construct failingInitEngine { addr := 0, content := "" }
      = ({ _handle := 0 }, NapaResponseCode.initializationFailure) :=
  rfl

/-- C2 (amended): constructing a Container always calls
`napa_container_create` and then `napa_container_init` with the settings
view, and always yields a constructed Container holding the created handle;
the initialization response code is computed by the engine but discarded by
the constructor, so an initialization failure is never surfaced and never
prevents the Container from being produced. -/
theorem container_construct_always_yields (e : Engine) (settings : OwnedString) :
    (Container.construct e settings).1 = { _handle := e.create }
    ∧ (Container.construct e settings).2
        = e.init e.create (stdStringToNapaStringRef settings) :=
  ⟨rfl, rfl⟩

/-- C3: evaluation at the failing input.  `Container` declares a
constructor and destructor but neither deletes nor declares any copy or
move operation, so by the C++ implicit special-member rules it is
copy-constructible; copying duplicates the one member `_handle`, and the
destructors of the original and of the copy release the same handle.
`internal::AsyncCompletionContext`, by contrast, deletes its copy and move
operations and is not copy-constructible. -/
theorem container_is_copyable :
    isCopyConstructible containerClassDecl = true
    ∧ isCopyConstructible asyncCompletionContextClassDecl = false
    ∧ (Container.implicitCopy { _handle := 7 })._handle = 7
    ∧ Container.destruct (Container.implicitCopy { _handle := 7 })
        = Container.destruct { _handle := 7 } := by
  refine ⟨rfl, rfl, rfl, rfl⟩

/-- C5: RunSync converts the arguments to views and returns exactly the
conversion of the engine's `napa_container_run_sync` result for the
function-name view, `argv.size()`, `argv.data()` and the timeout forwarded
unchanged; against a probing engine that reports which timeout it received,
timeout 0 observably arrives as 0 (no timeout) and any positive timeout
observably arrives positive (letting the engine report Timeout). -/
theorem runSync_forwards_unchanged (e : Engine) (c : Container) (m : Mem)
    (func : OwnedString) (args : List OwnedString) (t : Nat) :
    Container.RunSync e c m func args t
      = Response.ofNative m
          (e.run_sync c._handle (stdStringToNapaStringRef func)
            (ConvertToNapaRuntimeArgs args).length (ConvertToNapaRuntimeArgs args) t)
    ∧ (Container.RunSync timeoutProbeEngine c m func args 0).code
        = NapaResponseCode.success
    ∧ (∀ t2 : Nat, 0 < t2 →
        (Container.RunSync timeoutProbeEngine c m func args t2).code
          = NapaResponseCode.timeout) := by
  refine ⟨rfl, rfl, ?_⟩
  intro t2 ht2
  have hne : t2 ≠ 0 := Nat.pos_iff_ne_zero.mp ht2
  simp [Container.RunSync, timeoutProbeEngine, Response.ofNative, hne]

/-- C5 witness: a concrete positive timeout is forwarded and observed. -/
theorem runSync_forwards_unchanged_witness :
    0 < 5
    ∧ (Container.RunSync timeoutProbeEngine { _handle := 0 } []
        { addr := 0, content := "f" } [] 5).code = NapaResponseCode.timeout :=
  ⟨by decide,
   (runSync_forwards_unchanged timeoutProbeEngine { _handle := 0 } []
     { addr := 0, content := "f" } [] 0).2.2 5 (by decide)⟩

/-- C6: constructing a Response from an engine-native response copies the
engine's string-view data into owned text byte-identical to what the engine
reported (the stored error and return-value strings the views point at),
while the code is preserved; the resulting fields are owned strings, not
references into engine storage. -/
theorem response_copies_engine_views (m : Mem) (r : NapaContainerResponse)
    (eStr vStr : String)
    (he : storedAt m r.error.data eStr) (hes : r.error.size = eStr.length)
    (hv : storedAt m r.return_value.data vStr)
    (hvs : r.return_value.size = vStr.length) :
    (Response.ofNative m r).code = r.code
    ∧ (Response.ofNative m r).error = eStr
    ∧ (Response.ofNative m r).returnValue = vStr :=
  ⟨rfl, readRef_eq m r.error eStr he hes, readRef_eq m r.return_value vStr hv hvs⟩

/-- C6 witness: a concrete engine response whose views point into a
concrete memory is converted into byte-identical owned strings. -/
theorem response_copies_engine_views_witness :
    storedAt ['o', 'k', '!'] 0 "ok"
    ∧ storedAt ['o', 'k', '!'] 2 "!"
    ∧ (Response.ofNative ['o', 'k', '!']
        { code := NapaResponseCode.timeout
        , error := { data := 0, size := 2 }
        , return_value := { data := 2, size := 1 } }).error = "ok"
    ∧ (Response.ofNative ['o', 'k', '!']
        { code := NapaResponseCode.timeout
        , error := { data := 0, size := 2 }
        , return_value := { data := 2, size := 1 } }).returnValue = "!" :=
  ⟨by decide, by decide,
   (response_copies_engine_views ['o', 'k', '!']
     { code := NapaResponseCode.timeout
     , error := { data := 0, size := 2 }
     , return_value := { data := 2, size := 1 } } "ok" "!"
     (by decide) (by decide) (by decide) (by decide)).2.1,
   (response_copies_engine_views ['o', 'k', '!']
     { code := NapaResponseCode.timeout
     , error := { data := 0, size := 2 }
     , return_value := { data := 2, size := 1 } } "ok" "!"
     (by decide) (by decide) (by decide) (by decide)).2.2⟩

/-- C7: converting an ordered sequence of owned argument strings produces a
view sequence of the same length in the same order, performing exactly one
view construction per argument (the instrumented counter equals n); the
i-th view is the pointer-plus-length borrow of the i-th source string's
storage, and reading it back from a memory holding those strings yields the
i-th argument's bytes. -/
theorem convert_args_order_and_borrow (args : List OwnedString) (m : Mem)
    (i : Nat) (hm : ∀ arg ∈ args, storedAt m arg.addr arg.content) :
    (ConvertToNapaRuntimeArgsCounted args).1 = ConvertToNapaRuntimeArgs args
    ∧ (ConvertToNapaRuntimeArgsCounted args).2 = args.length
    ∧ (ConvertToNapaRuntimeArgs args).length = args.length
    ∧ (ConvertToNapaRuntimeArgs args)[i]? = (args[i]?).map stdStringToNapaStringRef
    ∧ ∀ arg, args[i]? = some arg →
        (ConvertToNapaRuntimeArgs args)[i]?
            = some { data := arg.addr, size := arg.content.length }
        ∧ napaStringRefToStdString m { data := arg.addr, size := arg.content.length }
            = arg.content := by
  refine ⟨by rw [convertCounted_eq], by rw [convertCounted_eq],
    by simp [ConvertToNapaRuntimeArgs], ?_, ?_⟩
  · simp [ConvertToNapaRuntimeArgs]
  · intro arg harg
    have hmem : arg ∈ args := by
      have h2 := List.getElem?_eq_some.mp harg
      obtain ⟨hlt, hget⟩ := h2
      exact hget ▸ List.getElem_mem hlt
    constructor
    · simp [ConvertToNapaRuntimeArgs, harg, stdStringToNapaStringRef]
    · exact readRef_storedAt m arg.addr arg.content (hm arg hmem)

/-- C7 witness: a concrete two-argument sequence stored in a concrete
memory converts to views in order. -/
theorem convert_args_order_and_borrow_witness :
    (∀ arg ∈ [OwnedString.mk 0 "ab", OwnedString.mk 2 "c"],
        storedAt ['a', 'b', 'c'] arg.addr arg.content)
    ∧ (ConvertToNapaRuntimeArgs [OwnedString.mk 0 "ab", OwnedString.mk 2 "c"])[1]?
        = ([OwnedString.mk 0 "ab", OwnedString.mk 2 "c"][1]?).map
            stdStringToNapaStringRef :=
  ⟨by decide,
   (convert_args_order_and_borrow [OwnedString.mk 0 "ab", OwnedString.mk 2 "c"]
     ['a', 'b', 'c'] 1 (by decide)).2.2.2.1⟩

/-- C1: from any well-formed bridge state, two asynchronous submissions
(Load, LoadFile or Run all share this bridge) allocate distinct context
pointers; when the engine signals completion with submission A's pointer,
the completion handler invokes exactly A's stored callback with the handed
response, destroys A's context (a second signal with the same pointer finds
no live context and invokes nothing), leaves B's context intact, and a
completion with B's pointer then invokes exactly B's callback with B's
response — no cross-invocation between the two submissions. -/
theorem completion_exactly_once_no_cross {R : Type} (s₀ : BridgeState)
    (cbA cbB : Nat) (rA rB rX : R) (hwf : s₀.WF) :
    (submitAsync s₀ cbA).1 ≠ (submitAsync (submitAsync s₀ cbA).2 cbB).1
    ∧ CompletionHandler (submitAsync (submitAsync s₀ cbA).2 cbB).2
        (submitAsync s₀ cbA).1 rA
        = some ({ heap := (s₀.nextAddr + 1, { callback := cbB }) :: s₀.heap
                , nextAddr := s₀.nextAddr + 2 }, cbA, rA)
    ∧ heapLookup ((s₀.nextAddr + 1, { callback := cbB }) :: s₀.heap)
        s₀.nextAddr = none
    ∧ CompletionHandler
        { heap := (s₀.nextAddr + 1, ({ callback := cbB } : AsyncCompletionContext))
            :: s₀.heap
        , nextAddr := s₀.nextAddr + 2 } s₀.nextAddr rX
        = none
    ∧ CompletionHandler
        { heap := (s₀.nextAddr + 1, ({ callback := cbB } : AsyncCompletionContext))
            :: s₀.heap
        , nextAddr := s₀.nextAddr + 2 } (s₀.nextAddr + 1) rB
        = some ({ heap := s₀.heap, nextAddr := s₀.nextAddr + 2 }, cbB, rB) := by
  have hne1 : s₀.nextAddr + 1 ≠ s₀.nextAddr := Nat.succ_ne_self _
  have hlookA : heapLookup
      ((s₀.nextAddr + 1, ({ callback := cbB } : AsyncCompletionContext))
        :: (s₀.nextAddr, ({ callback := cbA } : AsyncCompletionContext))
        :: s₀.heap) s₀.nextAddr
      = some { callback := cbA } := by
    rw [heapLookup_cons_ne _ _ _ _ hne1, heapLookup_cons_self]
  have hlookGone : heapLookup
      ((s₀.nextAddr + 1, ({ callback := cbB } : AsyncCompletionContext))
        :: s₀.heap) s₀.nextAddr = none := by
    rw [heapLookup_cons_ne _ _ _ _ hne1]
    exact heapLookup_none_of_lt s₀.heap s₀.nextAddr s₀.nextAddr hwf (Nat.le_refl _)
  refine ⟨?_, ?_, hlookGone, ?_, ?_⟩
  · show s₀.nextAddr ≠ s₀.nextAddr + 1
    exact fun h => Nat.succ_ne_self s₀.nextAddr h.symm
  · show CompletionHandler
        { heap := (s₀.nextAddr + 1, ({ callback := cbB } : AsyncCompletionContext))
            :: (s₀.nextAddr, ({ callback := cbA } : AsyncCompletionContext))
            :: s₀.heap
        , nextAddr := s₀.nextAddr + 2 } s₀.nextAddr rA = _
    rw [completionHandler_hit _ _ _ rA hlookA]
    have hfil : ((s₀.nextAddr + 1, ({ callback := cbB } : AsyncCompletionContext))
          :: (s₀.nextAddr, ({ callback := cbA } : AsyncCompletionContext))
          :: s₀.heap).filter (fun p => p.1 != s₀.nextAddr)
        = (s₀.nextAddr + 1, ({ callback := cbB } : AsyncCompletionContext))
          :: s₀.heap := by
      rw [List.filter_cons_of_pos (by simp [hne1]),
          List.filter_cons_of_neg (by simp),
          heapFilter_eq_of_lt s₀.heap s₀.nextAddr s₀.nextAddr hwf (Nat.le_refl _)]
    rw [hfil]
  · exact completionHandler_miss _ _ rX hlookGone
  · rw [completionHandler_hit _ _ _ rB (heapLookup_cons_self _ _ _)]
    have hfil2 : ((s₀.nextAddr + 1, ({ callback := cbB } : AsyncCompletionContext))
          :: s₀.heap).filter (fun p => p.1 != s₀.nextAddr + 1)
        = s₀.heap := by
      rw [List.filter_cons_of_neg (by simp),
          heapFilter_eq_of_lt s₀.heap s₀.nextAddr (s₀.nextAddr + 1) hwf
            (Nat.le_succ _)]
    rw [hfil2]

/-- C1 witness: concrete back-to-back submissions and completions from the
empty bridge state. -/
theorem completion_exactly_once_no_cross_witness :
    BridgeState.WF { heap := [], nextAddr := 0 }
    ∧ CompletionHandler
        (submitAsync (submitAsync { heap := [], nextAddr := 0 } 6).2 7).2
        (submitAsync { heap := [], nextAddr := 0 } 6).1 (10 : Nat)
        = some ({ heap := [(1, { callback := 7 })], nextAddr := 2 }, 6, 10) :=
  ⟨by decide,
   (completion_exactly_once_no_cross { heap := [], nextAddr := 0 }
     6 7 10 20 30 (by decide)).2.1⟩

/-- C9: a submission step of the asynchronous bridge (Load, LoadFile or
Run) emits no callback invocation itself — control returns to the caller
with the event list empty — and whatever invocation events the engine
produced before that submission are all tagged with context pointers
distinct from the one the new submission allocates, so the new submission's
callback is never invoked before the submission returns. -/
theorem no_callback_before_submission {R : Type} (s₀ : BridgeState)
    (pre : List (AsyncStep R)) (cb : Nat) (hwf : s₀.WF) :
    (∀ e ∈ (runAsync s₀ pre).2,
        e.1 ≠ (submitAsync (runAsync s₀ pre).1 cb).1)
    ∧ (stepAsync (runAsync s₀ pre).1 (AsyncStep.submit cb : AsyncStep R)).2
        = ([] : List (Nat × Nat × R)) := by
  obtain ⟨hwf1, hle, hev⟩ := runAsync_props pre s₀ hwf
  refine ⟨?_, rfl⟩
  intro e he
  show e.1 ≠ (runAsync s₀ pre).1.nextAddr
  exact Nat.ne_of_lt (hev e he)

/-- C9 witness: a concrete prefix with one submission and one completion,
followed by a fresh submission none of whose events could have mentioned
it. -/
theorem no_callback_before_submission_witness :
    BridgeState.WF { heap := [], nextAddr := 0 }
    ∧ ∀ e ∈ (runAsync { heap := [], nextAddr := 0 }
          [AsyncStep.submit 5, AsyncStep.complete 0 (42 : Nat)]).2,
        e.1 ≠ (submitAsync (runAsync { heap := [], nextAddr := 0 }
          [AsyncStep.submit 5, AsyncStep.complete 0 (42 : Nat)]).1 7).1 :=
  ⟨by decide,
   (no_callback_before_submission { heap := [], nextAddr := 0 }
     [AsyncStep.submit 5, AsyncStep.complete 0 (42 : Nat)] 7 (by decide)).1⟩

/-- C10: the view array `argv` built by Container::Run is a local of the
call — it is handed to the engine inside the call record and is not part of
the bridge state retained after Run returns; that retained state is exactly
the allocation of a completion context holding only the callback, so it is
identical for any two argument lists, and keeps neither the views nor the
argument text alive. -/
theorem run_retains_no_argument_state (s : BridgeState) (c : Container)
    (func : OwnedString) (args args2 : List OwnedString) (cb t : Nat) :
    (Container.Run s c func args cb t).2 = (submitAsync s cb).2
    ∧ (Container.Run s c func args cb t).2 = (Container.Run s c func args2 cb t).2
    ∧ (Container.Run s c func args cb t).1.argv = ConvertToNapaRuntimeArgs args
    ∧ (Container.Run s c func args cb t).1.argc
        = (ConvertToNapaRuntimeArgs args).length
    ∧ (Container.Run s c func args cb t).1.context = (submitAsync s cb).1
    ∧ heapLookup (Container.Run s c func args cb t).2.heap
        (Container.Run s c func args cb t).1.context
        = some { callback := cb } :=
  ⟨rfl, rfl, rfl, rfl, rfl, heapLookup_cons_self _ _ _⟩
